import Mathlib

/-!
Shallow embedding of the blog application in `src/main.py` (Flask + SQLAlchemy
+ Flask-Login), together with theorems settling the specification claims.

The relational store (three tables: users, blog_posts, comments) is modelled as
lists of rows plus autoincrement counters.  Each route handler becomes a pure
function from its inputs and the current store to an outcome and the new store.

Outcomes distinguish what the Python code actually does at the route boundary:
  * `Res.ok`            — the handler completes and redirects/renders normally;
  * `Res.forbidden`     — `abort(403)`, a handled Forbidden response;
  * `Res.crash`         — an uncaught Python exception (HTTP 500): e.g.
                          `AttributeError` on `None`/`AnonymousUserMixin`,
                          `UnmappedInstanceError` from `db.session.delete(None)`,
                          or an `IntegrityError` raised by a UNIQUE constraint
                          at commit time (none of these are caught anywhere in
                          `main.py`);
  * `Res.flashed msg`   — `flash(msg)` followed by a redirect/re-render, the
                          recoverable outcomes of the code.
-/

namespace MyBlog

/-- Row of the `users` table (class `User`, src/main.py lines 52-62).
`password` stores the werkzeug hash, never the plaintext. -/
structure User where
  id : Nat
  email : String
  password : String
  name : String
  deriving DecidableEq

/-- Row of the `blog_posts` table (class `BlogPost`, src/main.py lines 66-81).
`author_id` is a nullable foreign key onto `users.id` (the column is declared
without `nullable=False`). -/
structure BlogPost where
  id : Nat
  author_id : Option Nat
  title : String
  subtitle : String
  date : String
  body : String
  img_url : String
  deriving DecidableEq

/-- Row of the `comments` table (class `Comment`, src/main.py lines 83-92).
Both `author_id` and `post_id` are nullable foreign keys; SQLite does not
enforce them (foreign-key enforcement is off by default and no `ondelete`
clause is configured). -/
structure Comment where
  id : Nat
  author_id : Option Nat
  post_id : Option Nat
  text : String
  deriving DecidableEq

/-- The relational store: the three tables plus the autoincrement primary-key
counters SQLite maintains for them. -/
structure Store where
  users : List User
  posts : List BlogPost
  comments : List Comment
  nextUserId : Nat
  nextPostId : Nat
  nextCommentId : Nat
  deriving DecidableEq

/-- The store as created by `db.create_all()` on a fresh database: all tables
empty, autoincrement ids starting at 1. -/
def Store.empty : Store :=
  { users := [], posts := [], comments := [],
    nextUserId := 1, nextPostId := 1, nextCommentId := 1 }

/-- Outcome of one route invocation, see the module docstring. -/
inductive Res where
  | ok : Res
  | forbidden : Res
  | crash : Res
  | flashed : String → Res
  deriving DecidableEq

/-- Functional model of werkzeug's `generate_password_hash(p, method="pbkdf2:sha256",
salt_length=8)`: an abstract one-way encoding of the password.  Only the
contract needed by the code is kept: `check_password_hash (generate_password_hash p) q`
holds exactly when `q = p` (hash collisions are idealised away). -/
def generate_password_hash (password : String) : String :=
  String.append "pbkdf2:sha256:" password

/-- Functional model of werkzeug's `check_password_hash(pwhash, password)`. -/
def check_password_hash (pwhash password : String) : Bool :=
  pwhash == generate_password_hash password

/-- The `admin_only` decorator (src/main.py lines 17-30).  The Python guard is
`if current_user.id != 1 or not current_user.is_authenticated: return abort(403)`.
Evaluation order matters: when `current_user` is Flask-Login's
`AnonymousUserMixin` (no session), it has no `id` attribute, so evaluating
`current_user.id` raises `AttributeError` — an uncaught exception (`Res.crash`),
and the `not current_user.is_authenticated` disjunct is never reached.  When
`current_user` is a loaded `User` row, `is_authenticated` is `True` (from
`UserMixin`), so the guard reduces to the id test. -/
def admin_only (f : User → Store → Res × Store)
    (current_user : Option User) (s : Store) : Res × Store :=
  match current_user with
  | none => (Res.crash, s)
  | some u => if u.id != 1 then (Res.forbidden, s) else f u s

/-- The comment-submission path of route `show_post` (src/main.py lines
107-125), reached when `UserComment` validates on a POST.  `requested_post` is
`db.session.query(BlogPost).get(index)`, which is `None` when no post has that
id; for an authenticated user the code stores
`Comment(parent_post=requested_post, comment_author=current_user, text=...)`
and commits — with `requested_post = None` this inserts a row whose `post_id`
is NULL (the column is nullable and SQLite does not enforce the foreign key).
An unauthenticated user gets a flash and a redirect to the login page. -/
def show_post (current_user : Option User) (index : Nat) (text : String)
    (s : Store) : Res × Store :=
  let requested_post := s.posts.find? (fun p => p.id == index)
  match current_user with
  | some u =>
      (Res.ok,
       { s with
         comments := s.comments ++
           [{ id := s.nextCommentId, author_id := some u.id,
              post_id := requested_post.map (fun p => p.id), text := text }],
         nextCommentId := s.nextCommentId + 1 })
  | none => (Res.flashed "You need to login to comment!!!", s)

/-- Route `new_post` (src/main.py lines 128-147), the validated-POST path,
wrapped in `admin_only`.  `date` is the formatted current date
(`"Month DD,YYYY"`) computed at call time from `datetime.datetime.now()`,
passed here as an explicit parameter.  The handler performs no title check in
Python; the UNIQUE constraint on `blog_posts.title` makes the commit raise an
uncaught `IntegrityError` when a post with the same title already exists
(`Res.crash`, store unchanged because the transaction does not commit). -/
def new_post (current_user : Option User)
    (title subtitle body img_url date : String) (s : Store) : Res × Store :=
  admin_only (fun u s =>
    if s.posts.any (fun q => q.title == title) then (Res.crash, s)
    else
      (Res.ok,
       { s with
         posts := s.posts ++
           [{ id := s.nextPostId, author_id := some u.id, title := title,
              subtitle := subtitle, date := date, body := body,
              img_url := img_url }],
         nextPostId := s.nextPostId + 1 })) current_user s

/-- Route `edit_post` (src/main.py lines 150-172), wrapped in `admin_only`.
`post_to_edit = db.session.query(BlogPost).get(post_id)` is `None` when the
post does not exist, and the very next statement reads `post_to_edit.title`
to prefill the form — an uncaught `AttributeError` (`Res.crash`).  On the
validated-POST path the handler overwrites `title`, `subtitle`, `img_url` and
`body` and commits; `date`, `author_id` and `id` are not touched.  A commit
whose new title collides with a DIFFERENT post's title violates the UNIQUE
constraint and raises an uncaught `IntegrityError`. -/
def edit_post (current_user : Option User) (post_id : Nat)
    (title subtitle body img_url : String) (s : Store) : Res × Store :=
  admin_only (fun _ s =>
    match s.posts.find? (fun p => p.id == post_id) with
    | none => (Res.crash, s)
    | some _ =>
      if s.posts.any (fun q => q.id != post_id && q.title == title) then
        (Res.crash, s)
      else
        (Res.ok,
         { s with
           posts := s.posts.map (fun q =>
             if q.id == post_id then
               { q with
                 title := title
                 subtitle := subtitle
                 body := body
                 img_url := img_url }
             else q) })) current_user s

/-- Route `delete_post` (src/main.py lines 175-181), wrapped in `admin_only`.
When the post does not exist, `db.session.delete(None)` raises an uncaught
`UnmappedInstanceError` (`Res.crash`).  When it exists, SQLAlchemy deletes the
post row; the `comments` relationship carries no delete cascade (the default
cascade is `save-update, merge`), so at flush time SQLAlchemy DE-ASSOCIATES the
post's comments by setting their `post_id` foreign key to NULL — the comment
rows themselves are NOT deleted, and SQLite (foreign keys unenforced, column
nullable) accepts this. -/
def delete_post (current_user : Option User) (post_id : Nat)
    (s : Store) : Res × Store :=
  admin_only (fun _ s =>
    match s.posts.find? (fun p => p.id == post_id) with
    | none => (Res.crash, s)
    | some _ =>
      (Res.ok,
       { s with
         posts := s.posts.filter (fun q => q.id != post_id),
         comments := s.comments.map (fun c =>
           if c.post_id == some post_id then { c with post_id := none }
           else c) })) current_user s

/-- Route `register` (src/main.py lines 192-217), the validated-POST path.
The handler builds the `User` object (with the hashed password), queries all
stored emails, and only adds+commits and logs the new user in when the email
is not already taken; otherwise it flashes and redirects to login without
touching the store.  Returns (outcome, store, established session). -/
def register (email password name : String) (s : Store) :
    Res × Store × Option User :=
  let new_user : User :=
    { id := s.nextUserId, email := email,
      password := generate_password_hash password, name := name }
  let all_user_emails := s.users.map (fun u => u.email)
  if !(all_user_emails.contains email) then
    (Res.ok,
     { s with users := s.users ++ [new_user], nextUserId := s.nextUserId + 1 },
     some new_user)
  else
    (Res.flashed "This email already exists, login instead!!!.", s, none)

/-- Route `login` (src/main.py lines 219-237), the validated-POST path.
`User.query.filter_by(email=email).first()` is the first stored user with that
exact email.  The store is never mutated; the returned `Option User` is the
session established by `login_user` (present exactly on success). -/
def login (email password : String) (s : Store) : Res × Option User :=
  match s.users.find? (fun u => u.email == email) with
  | some user =>
      if check_password_hash user.password password then (Res.ok, some user)
      else (Res.flashed "Password is incorrect", none)
  | none => (Res.flashed "Email does not exist, please try again.", none)

/-- Sequencing of `register` calls, collecting each call's outcome and
threading the store (sessions are dropped; `register` logs the newest user in,
which does not affect the store). -/
def registerAll : List (String × String × String) → Store → List Res × Store
  | [], s => ([], s)
  | (email, password, name) :: rest, s =>
      let r := register email password name s
      let rs := registerAll rest r.2.1
      (r.1 :: rs.1, rs.2)

/-- One store-mutating operation of the system, with the acting session given
as the user id recorded in the session cookie (`None` = anonymous).  `login`
and `logout` never mutate the store, so they need no constructor here. -/
inductive Op where
  | opRegister (email password name : String)
  | opNewPost (uid : Option Nat) (title subtitle body img_url date : String)
  | opEditPost (uid : Option Nat) (post_id : Nat)
      (title subtitle body img_url : String)
  | opDeletePost (uid : Option Nat) (post_id : Nat)
  | opAddComment (uid : Option Nat) (post_id : Nat) (text : String)
  deriving DecidableEq

/-- Flask-Login's `load_user` (src/main.py lines 97-99): resolve the session's
user id against the store; an id with no matching row yields the anonymous
user. -/
def resolveActor (s : Store) (uid : Option Nat) : Option User :=
  uid.bind (fun i => s.users.find? (fun u => u.id == i))

/-- Effect of one operation on the store. -/
def step (s : Store) : Op → Store
  | Op.opRegister e p n => (register e p n s).2.1
  | Op.opNewPost uid t st b i d => (new_post (resolveActor s uid) t st b i d s).2
  | Op.opEditPost uid pid t st b i =>
      (edit_post (resolveActor s uid) pid t st b i s).2
  | Op.opDeletePost uid pid => (delete_post (resolveActor s uid) pid s).2
  | Op.opAddComment uid pid txt => (show_post (resolveActor s uid) pid txt s).2

/-- The store reached by running a sequence of operations from the fresh
database. -/
def run (ops : List Op) : Store := ops.foldl step Store.empty

/-- Referential integrity of stored comments: every comment's author is an
existing user, and every non-NULL parent reference points to an existing
post. -/
def commentIntegrity (s : Store) : Prop :=
  ∀ c ∈ s.comments,
    (∃ u ∈ s.users, c.author_id = some u.id) ∧
    (∀ k, c.post_id = some k → ∃ p ∈ s.posts, p.id = k)

/-- Concrete administrator row (id 1) used in witnesses and counterexamples. -/
def sampleUser : User :=
  { id := 1, email := "admin@example.com",
    password := generate_password_hash "pw", name := "Admin" }

/-- Concrete post used in witnesses and counterexamples. -/
def samplePost : BlogPost :=
  { id := 1, author_id := some 1, title := "T", subtitle := "S",
    date := "March 05,2024", body := "B", img_url := "I" }

/-- Concrete comment on `samplePost` by `sampleUser`. -/
def sampleComment : Comment :=
  { id := 1, author_id := some 1, post_id := some 1, text := "c" }

/-- Concrete store holding `sampleUser`, `samplePost` and `sampleComment`. -/
def sampleStore : Store :=
  { users := [sampleUser], posts := [samplePost], comments := [sampleComment],
    nextUserId := 2, nextPostId := 2, nextCommentId := 2 }

/-- First administrator call creating a post titled "Fresh" on `sampleStore`
(whose only post is titled "T"). -/
def c3FirstCall : Res × Store :=
  new_post (some sampleUser) "Fresh" "s1" "b1" "i1" "March 05,2024" sampleStore

/-- Second administrator call creating a post with the same title "Fresh" on
the store left by `c3FirstCall`. -/
def c3SecondCall : Res × Store :=
  new_post (some sampleUser) "Fresh" "s2" "b2" "i2" "March 06,2024" c3FirstCall.2

/-- Concrete operation sequence: Alice registers (receiving id 1, hence the
administrator id), creates a post and comments on it. -/
def demoOps : List Op :=
  [Op.opRegister "alice@example.com" "pw123" "Alice",
   Op.opNewPost (some 1) "T" "S" "B" "I" "March 05,2024",
   Op.opAddComment (some 1) 1 "nice post"]

/-- The comment stored by the last operation of `demoOps`. -/
def demoComment : Comment :=
  { id := 1, author_id := some 1, post_id := some 1, text := "nice post" }

/-! Helper lemmas shared by several claim theorems. -/

/-- Membership characterisation of the `not in all_user_emails` test in
`register`. -/
theorem emails_contains_false {l : List User} {e : String}
    (h : ∀ u ∈ l, u.email ≠ e) :
    (l.map (fun u => u.email)).contains e = false := by
  simp only [List.contains_eq_any_beq, List.any_eq_false, List.mem_map]
  rintro x ⟨u, hu, rfl⟩
  simp only [beq_iff_eq]
  exact fun he => h u hu he.symm

/-- Membership characterisation of the `not in all_user_emails` test in
`register`, positive case. -/
theorem emails_contains_true {l : List User} {u : User} {e : String}
    (hu : u ∈ l) (he : u.email = e) :
    (l.map (fun x => x.email)).contains e = true := by
  simp only [List.contains_eq_any_beq, List.any_eq_true, List.mem_map]
  exact ⟨e, ⟨u, hu, he⟩, by simp⟩

/-- Equation for the successful path of `register` (the email is fresh). -/
theorem register_fresh (e p n : String) (s : Store)
    (h : ∀ u ∈ s.users, u.email ≠ e) :
    register e p n s =
      (Res.ok,
       { s with
         users := s.users ++
           [{ id := s.nextUserId
              email := e
              password := generate_password_hash p
              name := n }]
         nextUserId := s.nextUserId + 1 },
       some { id := s.nextUserId
              email := e
              password := generate_password_hash p
              name := n }) := by
  have h1 : (s.users.map (fun u => u.email)).contains e = false :=
    emails_contains_false h
  simp only [register, h1, Bool.not_false]
  simp

/-- Equation for the rejecting path of `register` (a stored user already has
the email): flash and redirect, the store untouched. -/
theorem register_dup (e p n : String) (s : Store) (u : User)
    (hu : u ∈ s.users) (he : u.email = e) :
    register e p n s =
      (Res.flashed "This email already exists, login instead!!!.", s, none) := by
  have h1 : (s.users.map (fun x => x.email)).contains e = true :=
    emails_contains_true hu he
  simp only [register, h1, Bool.not_true]
  simp

/-- The admin gate passes an authenticated user with id 1 straight through to
the wrapped handler. -/
theorem admin_only_passes (f : User → Store → Res × Store) (u : User)
    (h : u.id = 1) (s : Store) : admin_only f (some u) s = f u s := by
  simp [admin_only, h]

/-! Claim theorems. -/

/-- C1: the admin gate does NOT refuse an anonymous actor with a Forbidden
outcome.  With no session, `current_user` is Flask-Login's anonymous user,
which has no `id` attribute; `admin_only` evaluates `current_user.id` before
`current_user.is_authenticated`, so every mutating route crashes with an
uncaught `AttributeError` (HTTP 500) instead of `abort(403)`.  The store is
nevertheless left unchanged. -/
theorem C1_anonymous_actor_crashes_not_forbidden
    (t st b i d : String) (pid : Nat) (s : Store) :
    new_post none t st b i d s = (Res.crash, s) ∧
    edit_post none pid t st b i s = (Res.crash, s) ∧
    delete_post none pid s = (Res.crash, s) ∧
    Res.crash ≠ Res.forbidden :=
  ⟨rfl, rfl, rfl, by decide⟩

/-- C6: registering twice with the same email: the first call succeeds, the
second flashes the duplicate-email message and leaves the store exactly as the
first call left it, and exactly one stored user carries that email. -/
theorem C6_duplicate_email_second_rejected
    (e p1 n1 p2 n2 : String) (s : Store)
    (hfresh : ∀ u ∈ s.users, u.email ≠ e) :
    (register e p1 n1 s).1 = Res.ok ∧
    (register e p2 n2 (register e p1 n1 s).2.1).1 =
      Res.flashed "This email already exists, login instead!!!." ∧
    (register e p2 n2 (register e p1 n1 s).2.1).2.1 = (register e p1 n1 s).2.1 ∧
    ((register e p1 n1 s).2.1.users.filter (fun u => u.email == e)).length = 1 := by
  have hfil : s.users.filter (fun u => u.email == e) = [] := by
    rw [List.filter_eq_nil_iff]
    intro u hu
    simp [hfresh u hu]
  rw [register_fresh e p1 n1 s hfresh]
  have hdup := register_dup e p2 n2
    { s with
      users := s.users ++
        [{ id := s.nextUserId
           email := e
           password := generate_password_hash p1
           name := n1 }]
      nextUserId := s.nextUserId + 1 }
    { id := s.nextUserId
      email := e
      password := generate_password_hash p1
      name := n1 }
    (by simp) rfl
  rw [hdup]
  refine ⟨rfl, rfl, rfl, ?_⟩
  simp [List.filter_append, hfil]

/-- C6 witness: concrete double registration from the empty store. -/
theorem C6_duplicate_email_second_rejected_witness :
    (register "a@b.c" "pw" "A" Store.empty).1 = Res.ok ∧
    (register "a@b.c" "pw2" "B" (register "a@b.c" "pw" "A" Store.empty).2.1).1 =
      Res.flashed "This email already exists, login instead!!!." ∧
    (register "a@b.c" "pw2" "B" (register "a@b.c" "pw" "A" Store.empty).2.1).2.1 =
      (register "a@b.c" "pw" "A" Store.empty).2.1 ∧
    ((register "a@b.c" "pw" "A" Store.empty).2.1.users.filter
      (fun u => u.email == "a@b.c")).length = 1 :=
  C6_duplicate_email_second_rejected "a@b.c" "pw" "A" "pw2" "B" Store.empty
    (by intro u hu; cases hu)

/-- C7: commenting requires authentication.  For an authenticated user and an
existing post, the comment-submission path of `show_post` stores exactly one
new comment whose author is that user and whose parent is that post; an
anonymous submission flashes the login demand (the Unauthenticated outcome,
redirecting to the login page) and stores nothing. -/
theorem C7_add_comment_requires_auth (u : User) (pid : Nat) (p : BlogPost)
    (text : String) (s : Store)
    (hp : s.posts.find? (fun q => q.id == pid) = some p) :
    (show_post (some u) pid text s).1 = Res.ok ∧
    (show_post (some u) pid text s).2.comments =
      s.comments ++ [{ id := s.nextCommentId, author_id := some u.id,
                       post_id := some p.id, text := text }] ∧
    (show_post (some u) pid text s).2.posts = s.posts ∧
    (show_post (some u) pid text s).2.users = s.users ∧
    show_post none pid text s =
      (Res.flashed "You need to login to comment!!!", s) := by
  refine ⟨rfl, ?_, rfl, rfl, rfl⟩
  simp [show_post, hp]

/-- C7 witness: Alice comments on the sample post; the anonymous attempt is
flashed to the login page. -/
theorem C7_add_comment_requires_auth_witness :
    (show_post (some sampleUser) 1 "nice post" sampleStore).1 = Res.ok ∧
    (show_post (some sampleUser) 1 "nice post" sampleStore).2.comments =
      sampleStore.comments ++
        [{ id := sampleStore.nextCommentId, author_id := some sampleUser.id,
           post_id := some samplePost.id, text := "nice post" }] ∧
    (show_post (some sampleUser) 1 "nice post" sampleStore).2.posts =
      sampleStore.posts ∧
    (show_post (some sampleUser) 1 "nice post" sampleStore).2.users =
      sampleStore.users ∧
    show_post none 1 "nice post" sampleStore =
      (Res.flashed "You need to login to comment!!!", sampleStore) :=
  C7_add_comment_requires_auth sampleUser 1 samplePost "nice post" sampleStore rfl

/-- C8: `login` flashes the missing-email message when no stored user has the
submitted email (the NotFound outcome); when a user with that email exists it
verifies the password against the stored hash — on mismatch it flashes the
bad-password message (the BadCredential outcome) and establishes no session,
and exactly on a match it succeeds and establishes the session for that
user. -/
theorem C8_authenticate_cases (e pw : String) (s : Store) :
    ((∀ u ∈ s.users, u.email ≠ e) →
      login e pw s = (Res.flashed "Email does not exist, please try again.", none)) ∧
    (∀ u, s.users.find? (fun x => x.email == e) = some u →
      (check_password_hash u.password pw = false →
        login e pw s = (Res.flashed "Password is incorrect", none)) ∧
      (check_password_hash u.password pw = true →
        login e pw s = (Res.ok, some u))) := by
  constructor
  · intro h
    have hnone : s.users.find? (fun x => x.email == e) = none := by
      rw [List.find?_eq_none]
      intro x hx
      simp [h x hx]
    simp [login, hnone]
  · intro u hu
    constructor <;> intro hc <;> simp [login, hu, hc]

/-- C8 witness: wrong password for the stored administrator account is
rejected with the bad-password flash and no session. -/
theorem C8_authenticate_cases_witness :
    login "admin@example.com" "wrong" sampleStore =
      (Res.flashed "Password is incorrect", none) :=
  ((C8_authenticate_cases "admin@example.com" "wrong" sampleStore).2
    sampleUser rfl).1 rfl

/-- C2 counterexample: deleting the sample post (which has one comment)
succeeds, but the comment row is NOT removed from the store — it survives with
its `post_id` set to NULL, because the `comments` relationship carries no
delete cascade and SQLAlchemy de-associates children instead of deleting them.
The claim that `deletePost` "removes every comment whose parent post is p" is
therefore false on the code. -/
theorem C2_counterexample :
    (delete_post (some sampleUser) 1 sampleStore).1 = Res.ok ∧
    (delete_post (some sampleUser) 1 sampleStore).2.comments =
      [{ id := 1, author_id := some 1, post_id := none, text := "c" }] :=
  ⟨rfl, rfl⟩

/-- C2 as amended: `deletePost` by the administrator on an existing post
removes the post row and DETACHES its comments: every comment row survives
(the comment count is unchanged), comments whose parent was the deleted post
keep all their fields but have their parent reference nulled, all other
comments are untouched, and afterwards no comment references the deleted
post's identifier. -/
theorem C2_delete_post_detaches_comments (admin : User) (hadmin : admin.id = 1)
    (pid : Nat) (s : Store) (p : BlogPost)
    (hp : s.posts.find? (fun q => q.id == pid) = some p) :
    (delete_post (some admin) pid s).1 = Res.ok ∧
    (∀ q ∈ (delete_post (some admin) pid s).2.posts, q.id ≠ pid) ∧
    (∀ q ∈ s.posts, q.id ≠ pid → q ∈ (delete_post (some admin) pid s).2.posts) ∧
    (delete_post (some admin) pid s).2.comments.length = s.comments.length ∧
    (∀ c ∈ (delete_post (some admin) pid s).2.comments, c.post_id ≠ some pid) ∧
    (∀ c ∈ s.comments, c.post_id = some pid →
      { c with post_id := none } ∈ (delete_post (some admin) pid s).2.comments) ∧
    (∀ c ∈ s.comments, c.post_id ≠ some pid →
      c ∈ (delete_post (some admin) pid s).2.comments) ∧
    (delete_post (some admin) pid s).2.users = s.users := by
  simp only [delete_post, admin_only, hadmin, bne_self_eq_false, Bool.false_eq_true,
    if_false, hp]
  refine ⟨trivial, ?_, ?_, by simp, ?_, ?_, ?_, trivial⟩
  · intro q hq
    have := (List.mem_filter.1 hq).2
    simpa using this
  · intro q hq hne
    exact List.mem_filter.2 ⟨hq, by simpa using hne⟩
  · intro c hc
    rcases List.mem_map.1 hc with ⟨c0, hc0, rfl⟩
    by_cases h : c0.post_id = some pid
    · simp [h]
    · simp [h]
  · intro c hc h
    exact List.mem_map.2 ⟨c, hc, by simp [h]⟩
  · intro c hc h
    refine List.mem_map.2 ⟨c, hc, ?_⟩
    have : (c.post_id == some pid) = false := by simpa using h
    simp [this]

/-- C2 witness: the amended theorem applied to the sample store. -/
theorem C2_delete_post_detaches_comments_witness :
    (delete_post (some sampleUser) 1 sampleStore).1 = Res.ok ∧
    (delete_post (some sampleUser) 1 sampleStore).2.comments.length =
      sampleStore.comments.length ∧
    (delete_post (some sampleUser) 1 sampleStore).2.users = sampleStore.users :=
  ⟨(C2_delete_post_detaches_comments sampleUser rfl 1 sampleStore samplePost rfl).1,
   (C2_delete_post_detaches_comments sampleUser rfl 1 sampleStore samplePost rfl).2.2.2.1,
   (C2_delete_post_detaches_comments sampleUser rfl 1 sampleStore samplePost rfl).2.2.2.2.2.2.2⟩

/-- C3 counterexample: the first administrator creation of a post titled
"Fresh" succeeds; the second creation with the identical title makes the
commit violate the UNIQUE constraint on `blog_posts.title`, an uncaught
`IntegrityError` — a crash, not any recoverable flashed outcome such as a
DuplicateTitle message. -/
theorem C3_counterexample :
    c3FirstCall.1 = Res.ok ∧
    c3SecondCall.1 = Res.crash ∧
    ¬ ∃ m, c3SecondCall.1 = Res.flashed m := by
  refine ⟨rfl, rfl, ?_⟩
  rintro ⟨m, hm⟩
  have h2 : c3SecondCall.1 = Res.crash := rfl
  rw [h2] at hm
  exact Res.noConfusion hm

/-- C3 as amended: when no stored post carries the title, the administrator's
first `createPost` succeeds; a second `createPost` with the same title crashes
with the store's uniqueness-violation error (an uncaught `IntegrityError`,
not a recoverable DuplicateTitle outcome), the second call leaves the store
unchanged, and the store afterwards contains exactly one post with that
title. -/
theorem C3_duplicate_title_second_crashes (admin : User) (hadmin : admin.id = 1)
    (t s1 b1 i1 d1 s2 b2 i2 d2 : String) (s : Store)
    (hfresh : ∀ q ∈ s.posts, q.title ≠ t) :
    (new_post (some admin) t s1 b1 i1 d1 s).1 = Res.ok ∧
    (new_post (some admin) t s2 b2 i2 d2
      (new_post (some admin) t s1 b1 i1 d1 s).2).1 = Res.crash ∧
    (new_post (some admin) t s2 b2 i2 d2
      (new_post (some admin) t s1 b1 i1 d1 s).2).2 =
      (new_post (some admin) t s1 b1 i1 d1 s).2 ∧
    ((new_post (some admin) t s1 b1 i1 d1 s).2.posts.filter
      (fun q => q.title == t)).length = 1 := by
  have hany : s.posts.any (fun q => q.title == t) = false := by
    rw [List.any_eq_false]
    intro q hq
    simp [hfresh q hq]
  have hfil : s.posts.filter (fun q => q.title == t) = [] := by
    rw [List.filter_eq_nil_iff]
    intro q hq
    simp [hfresh q hq]
  simp only [new_post, admin_only, hadmin, bne_self_eq_false, Bool.false_eq_true,
    if_false, hany, List.any_append, List.filter_append, hfil]
  simp

/-- C3 witness: the amended theorem applied to the sample store with the fresh
title "Fresh". -/
theorem C3_duplicate_title_second_crashes_witness :
    c3FirstCall.1 = Res.ok ∧ c3SecondCall.1 = Res.crash ∧
    c3SecondCall.2 = c3FirstCall.2 ∧
    (c3FirstCall.2.posts.filter (fun q => q.title == "Fresh")).length = 1 :=
  C3_duplicate_title_second_crashes sampleUser rfl "Fresh" "s1" "b1" "i1"
    "March 05,2024" "s2" "b2" "i2" "March 06,2024" sampleStore (by decide)

/-- C4 counterexample: no post with id 99 exists in the sample store, yet the
administrator's `edit_post` and `delete_post` do not produce any recoverable
NotFound outcome: `edit_post` raises `AttributeError` prefetching
`post_to_edit.title` from `None`, and `delete_post` raises
`UnmappedInstanceError` from `db.session.delete(None)` — both uncaught
crashes.  The store is left unchanged. -/
theorem C4_counterexample :
    edit_post (some sampleUser) 99 "t" "s" "b" "i" sampleStore =
      (Res.crash, sampleStore) ∧
    delete_post (some sampleUser) 99 sampleStore = (Res.crash, sampleStore) ∧
    ¬ ∃ m, (edit_post (some sampleUser) 99 "t" "s" "b" "i" sampleStore).1 =
      Res.flashed m := by
  refine ⟨rfl, rfl, ?_⟩
  rintro ⟨m, hm⟩
  have h2 : (edit_post (some sampleUser) 99 "t" "s" "b" "i" sampleStore).1 =
      Res.crash := rfl
  rw [h2] at hm
  exact Res.noConfusion hm

/-- C4 as amended: for every identifier with no stored post, the
administrator's `edit_post` and `delete_post` crash with an uncaught exception
(not a recoverable NotFound outcome) and leave the store unchanged. -/
theorem C4_missing_post_crashes (admin : User) (hadmin : admin.id = 1)
    (pid : Nat) (s : Store)
    (hmiss : s.posts.find? (fun p => p.id == pid) = none)
    (t st b i : String) :
    edit_post (some admin) pid t st b i s = (Res.crash, s) ∧
    delete_post (some admin) pid s = (Res.crash, s) := by
  simp only [edit_post, delete_post, admin_only, hadmin, bne_self_eq_false,
    Bool.false_eq_true, if_false, hmiss]
  exact ⟨trivial, trivial⟩

/-- C4 witness: the amended theorem at post id 99 in the sample store. -/
theorem C4_missing_post_crashes_witness :
    edit_post (some sampleUser) 99 "t" "s" "b" "i" sampleStore =
      (Res.crash, sampleStore) ∧
    delete_post (some sampleUser) 99 sampleStore = (Res.crash, sampleStore) :=
  C4_missing_post_crashes sampleUser rfl 99 sampleStore rfl "t" "s" "b" "i"

/-- The administrator call of `edit_post` either crashes leaving the store
unchanged, or succeeds and maps the submitted fields over the posts carrying
the edited id. -/
theorem edit_post_cases (admin : User) (hadmin : admin.id = 1)
    (pid : Nat) (t st b i : String) (s : Store) :
    edit_post (some admin) pid t st b i s = (Res.crash, s) ∨
    edit_post (some admin) pid t st b i s =
      (Res.ok,
       { s with
         posts := s.posts.map (fun q =>
           if q.id == pid then
             { q with
               title := t
               subtitle := st
               body := b
               img_url := i }
           else q) }) := by
  simp only [edit_post, admin_only, hadmin, bne_self_eq_false,
    Bool.false_eq_true, if_false]
  cases s.posts.find? (fun p => p.id == pid) with
  | none => exact Or.inl rfl
  | some p =>
      by_cases hany : s.posts.any (fun q => q.id != pid && q.title == t) = true
      · left
        dsimp only
        rw [if_pos hany]
      · right
        dsimp only
        rw [if_neg hany]

/-- Equation for the successful path of `edit_post`: when the call returns
`Res.ok`, the resulting store maps the submitted fields over the posts with
the edited id and changes nothing else. -/
theorem edit_post_ok_eq (admin : User) (hadmin : admin.id = 1)
    (pid : Nat) (t st b i : String) (s : Store)
    (hok : (edit_post (some admin) pid t st b i s).1 = Res.ok) :
    (edit_post (some admin) pid t st b i s).2 =
      { s with
        posts := s.posts.map (fun q =>
          if q.id == pid then
            { q with
              title := t
              subtitle := st
              body := b
              img_url := i }
          else q) } := by
  rcases edit_post_cases admin hadmin pid t st b i s with h | h
  · rw [h] at hok
    exact absurd hok (by simp)
  · rw [h]

/-- C10: a successful administrator `edit_post` on an existing post overwrites
exactly the title, subtitle, body and image URL of every stored post carrying
that id with the submitted values; the post's id, author and creation date are
untouched, every post with a different id is untouched row-for-row, and the
users and comments tables are unchanged. -/
theorem C10_edit_post_frame (admin : User) (hadmin : admin.id = 1)
    (pid : Nat) (t st b i : String) (s : Store)
    (hok : (edit_post (some admin) pid t st b i s).1 = Res.ok) :
    (edit_post (some admin) pid t st b i s).2.users = s.users ∧
    (edit_post (some admin) pid t st b i s).2.comments = s.comments ∧
    (edit_post (some admin) pid t st b i s).2.posts.length = s.posts.length ∧
    (∀ (k : Nat) (q : BlogPost), s.posts[k]? = some q →
      (q.id ≠ pid →
        (edit_post (some admin) pid t st b i s).2.posts[k]? = some q) ∧
      (q.id = pid →
        (edit_post (some admin) pid t st b i s).2.posts[k]? =
          some { q with
                 title := t
                 subtitle := st
                 body := b
                 img_url := i })) := by
  rw [edit_post_ok_eq admin hadmin pid t st b i s hok]
  refine ⟨rfl, rfl, by simp, ?_⟩
  intro k q hq
  constructor
  · intro hne
    simp [List.getElem?_map, hq, hne]
  · intro heq
    simp [List.getElem?_map, hq, heq]

/-- C10 witness: editing the sample post leaves users, comments and the post
count unchanged, and row 0 carries exactly the submitted fields with its
identity, author and date intact. -/
theorem C10_edit_post_frame_witness :
    (edit_post (some sampleUser) 1 "T2" "S2" "B2" "I2" sampleStore).2.users =
      sampleStore.users ∧
    (edit_post (some sampleUser) 1 "T2" "S2" "B2" "I2" sampleStore).2.comments =
      sampleStore.comments ∧
    (edit_post (some sampleUser) 1 "T2" "S2" "B2" "I2" sampleStore).2.posts.length =
      sampleStore.posts.length ∧
    (edit_post (some sampleUser) 1 "T2" "S2" "B2" "I2" sampleStore).2.posts[0]? =
      some { samplePost with
             title := "T2"
             subtitle := "S2"
             body := "B2"
             img_url := "I2" } :=
  ⟨(C10_edit_post_frame sampleUser rfl 1 "T2" "S2" "B2" "I2" sampleStore rfl).1,
   (C10_edit_post_frame sampleUser rfl 1 "T2" "S2" "B2" "I2" sampleStore rfl).2.1,
   (C10_edit_post_frame sampleUser rfl 1 "T2" "S2" "B2" "I2" sampleStore rfl).2.2.1,
   ((C10_edit_post_frame sampleUser rfl 1 "T2" "S2" "B2" "I2" sampleStore
      rfl).2.2.2 0 samplePost rfl).2 rfl⟩

/-- The store left by `register` is either untouched (duplicate email) or has
exactly the new user appended. -/
theorem register_store_cases (e p n : String) (s : Store) :
    (register e p n s).2.1 = s ∨
    (register e p n s).2.1 =
      { s with
        users := s.users ++ [{ id := s.nextUserId
                               email := e
                               password := generate_password_hash p
                               name := n }]
        nextUserId := s.nextUserId + 1 } := by
  simp only [register]
  by_cases hc : (s.users.map (fun u => u.email)).contains e = true
  · left
    rw [hc]
    simp
  · right
    rw [Bool.not_eq_true] at hc
    rw [hc]
    simp

/-- The store left by `new_post` is either untouched (anonymous crash,
non-admin refusal, or duplicate-title crash) or has exactly one new post
appended. -/
theorem new_post_store_cases (cu : Option User) (t st b i d : String)
    (s : Store) :
    (new_post cu t st b i d s).2 = s ∨
    ∃ u : User, (new_post cu t st b i d s).2 =
      { s with
        posts := s.posts ++ [{ id := s.nextPostId
                               author_id := some u.id
                               title := t
                               subtitle := st
                               date := d
                               body := b
                               img_url := i }]
        nextPostId := s.nextPostId + 1 } := by
  cases cu with
  | none => exact Or.inl rfl
  | some u =>
      simp only [new_post, admin_only]
      by_cases hid : (u.id != 1) = true
      · left
        rw [if_pos hid]
      · rw [if_neg hid]
        by_cases hany : (s.posts.any (fun q => q.title == t)) = true
        · left
          rw [if_pos hany]
        · right
          exact ⟨u, by rw [if_neg hany]⟩

/-- `edit_post` never touches comments or users, and preserves every post id
(the success path maps an id-preserving update over the posts). -/
theorem edit_post_effect (cu : Option User) (pid : Nat) (t st b i : String)
    (s : Store) :
    (edit_post cu pid t st b i s).2.comments = s.comments ∧
    (edit_post cu pid t st b i s).2.users = s.users ∧
    ∀ p ∈ s.posts, ∃ p' ∈ (edit_post cu pid t st b i s).2.posts, p'.id = p.id := by
  cases cu with
  | none => exact ⟨rfl, rfl, fun p hp => ⟨p, hp, rfl⟩⟩
  | some u =>
      simp only [edit_post, admin_only]
      by_cases hid : (u.id != 1) = true
      · rw [if_pos hid]
        exact ⟨rfl, rfl, fun p hp => ⟨p, hp, rfl⟩⟩
      · rw [if_neg hid]
        cases s.posts.find? (fun p => p.id == pid) with
        | none => exact ⟨rfl, rfl, fun p hp => ⟨p, hp, rfl⟩⟩
        | some p0 =>
            dsimp only
            by_cases hany :
                (s.posts.any (fun q => q.id != pid && q.title == t)) = true
            · rw [if_pos hany]
              exact ⟨rfl, rfl, fun p hp => ⟨p, hp, rfl⟩⟩
            · rw [if_neg hany]
              refine ⟨rfl, rfl, fun p hp => ?_⟩
              refine ⟨if p.id == pid then
                  { p with title := t, subtitle := st, body := b, img_url := i }
                else p, List.mem_map.2 ⟨p, hp, rfl⟩, ?_⟩
              by_cases hpp : (p.id == pid) = true
              · simp [hpp]
              · simp [hpp]

/-- The store left by `delete_post` is either untouched (crash or refusal) or
has the posts with the deleted id filtered out and the comments de-associated
from it. -/
theorem delete_post_store_cases (cu : Option User) (pid : Nat) (s : Store) :
    (delete_post cu pid s).2 = s ∨
    ((delete_post cu pid s).2.users = s.users ∧
     (delete_post cu pid s).2.posts = s.posts.filter (fun q => q.id != pid) ∧
     (delete_post cu pid s).2.comments = s.comments.map (fun c =>
       if c.post_id == some pid then { c with post_id := none } else c)) := by
  cases cu with
  | none => exact Or.inl rfl
  | some u =>
      simp only [delete_post, admin_only]
      by_cases hid : (u.id != 1) = true
      · left
        rw [if_pos hid]
      · rw [if_neg hid]
        cases s.posts.find? (fun p => p.id == pid) with
        | none => exact Or.inl rfl
        | some p0 => exact Or.inr ⟨rfl, rfl, rfl⟩

/-- The store left by the comment-submission path of `show_post` is either
untouched (anonymous) or has exactly one comment appended, authored by the
acting user, whose parent reference is the id of the looked-up post (NULL when
the lookup found nothing). -/
theorem show_post_store_cases (cu : Option User) (pid : Nat) (txt : String)
    (s : Store) :
    (show_post cu pid txt s).2 = s ∨
    ∃ u : User, cu = some u ∧ (show_post cu pid txt s).2 =
      { s with
        comments := s.comments ++
          [{ id := s.nextCommentId
             author_id := some u.id
             post_id := (s.posts.find? (fun p => p.id == pid)).map (fun p => p.id)
             text := txt }]
        nextCommentId := s.nextCommentId + 1 } := by
  cases cu with
  | none => exact Or.inl rfl
  | some u => exact Or.inr ⟨u, rfl, rfl⟩

/-- The empty store has referentially intact comments (there are none). -/
theorem commentIntegrity_empty : commentIntegrity Store.empty := by
  intro c hc
  cases hc

/-- Every operation preserves referential integrity of comment authors and of
non-NULL comment parent references. -/
theorem commentIntegrity_step (s : Store) (h : commentIntegrity s) (op : Op) :
    commentIntegrity (step s op) := by
  cases op with
  | opRegister e p n =>
      show commentIntegrity (register e p n s).2.1
      rcases register_store_cases e p n s with heq | heq <;> rw [heq]
      · exact h
      · intro c hc
        rcases h c hc with ⟨⟨u, hu, hau⟩, hpost⟩
        exact ⟨⟨u, List.mem_append_left _ hu, hau⟩, hpost⟩
  | opNewPost uid t st b i d =>
      show commentIntegrity (new_post (resolveActor s uid) t st b i d s).2
      rcases new_post_store_cases (resolveActor s uid) t st b i d s with
        heq | ⟨u, heq⟩ <;> rw [heq]
      · exact h
      · intro c hc
        rcases h c hc with ⟨hauth, hpost⟩
        refine ⟨hauth, fun k hk => ?_⟩
        rcases hpost k hk with ⟨p, hp, hid⟩
        exact ⟨p, List.mem_append_left _ hp, hid⟩
  | opEditPost uid pid t st b i =>
      show commentIntegrity (edit_post (resolveActor s uid) pid t st b i s).2
      obtain ⟨hcom, hus, hpo⟩ := edit_post_effect (resolveActor s uid) pid t st b i s
      intro c hc
      rw [hcom] at hc
      rcases h c hc with ⟨⟨u, hu, hau⟩, hpost⟩
      refine ⟨⟨u, by rw [hus]; exact hu, hau⟩, fun k hk => ?_⟩
      rcases hpost k hk with ⟨p, hp, hid⟩
      rcases hpo p hp with ⟨p', hp', hid'⟩
      exact ⟨p', hp', hid'.trans hid⟩
  | opDeletePost uid pid =>
      show commentIntegrity (delete_post (resolveActor s uid) pid s).2
      rcases delete_post_store_cases (resolveActor s uid) pid s with
        heq | ⟨hus, hpo, hcom⟩
      · rw [heq]
        exact h
      · intro c hc
        rw [hcom] at hc
        rcases List.mem_map.1 hc with ⟨c0, hc0, rfl⟩
        rcases h c0 hc0 with ⟨⟨u, hu, hau⟩, hpost⟩
        by_cases hb : (c0.post_id == some pid) = true
        · refine ⟨⟨u, by rw [hus]; exact hu, by simp [hb, hau]⟩, fun k hk => ?_⟩
          rw [if_pos hb] at hk
          exact absurd hk (by simp)
        · refine ⟨⟨u, by rw [hus]; exact hu, by simp [hb, hau]⟩, fun k hk => ?_⟩
          rw [if_neg hb] at hk
          have hkpid : k ≠ pid := by
            intro hkp
            rw [Bool.not_eq_true] at hb
            rw [hkp] at hk
            simp [hk] at hb
          rcases hpost k hk with ⟨p, hp, hid⟩
          rw [hpo]
          refine ⟨p, List.mem_filter.2 ⟨hp, by simp [hid, hkpid]⟩, hid⟩
  | opAddComment uid pid txt =>
      show commentIntegrity (show_post (resolveActor s uid) pid txt s).2
      rcases show_post_store_cases (resolveActor s uid) pid txt s with
        heq | ⟨u, hcu, heq⟩
      · rw [heq]
        exact h
      · rw [heq]
        intro c hc
        rcases List.mem_append.1 hc with hold | hnew
        · exact h c hold
        · rcases List.mem_singleton.1 hnew with rfl
          constructor
          · refine ⟨u, ?_, rfl⟩
            cases uid with
            | none => exact absurd hcu (by simp [resolveActor])
            | some j =>
                have : s.users.find? (fun x => x.id == j) = some u := by
                  simpa [resolveActor] using hcu
                exact List.mem_of_find?_eq_some this
          · intro k hk
            cases hfind : s.posts.find? (fun p => p.id == pid) with
            | none =>
                rw [hfind] at hk
                exact absurd hk (by simp)
            | some p =>
                rw [hfind] at hk
                refine ⟨p, List.mem_of_find?_eq_some hfind, ?_⟩
                simpa using hk

/-- Referential integrity of comments holds in every reachable store. -/
theorem commentIntegrity_run (ops : List Op) : commentIntegrity (run ops) := by
  suffices hgen : ∀ s, commentIntegrity s → commentIntegrity (ops.foldl step s) from
    hgen Store.empty commentIntegrity_empty
  induction ops with
  | nil => exact fun s hs => hs
  | cons op rest ih => exact fun s hs => ih (step s op) (commentIntegrity_step s hs op)

/-- C5 counterexample: a reachable state containing a PARENTLESS comment.
Alice registers and then submits a comment on post id 7, which does not exist
(`run` of the two operations); `show_post` nevertheless stores the comment,
with a NULL parent reference, and the store holds no post at all.  The claim
that every reachable comment has a valid parent post is therefore false on the
code. -/
theorem C5_counterexample :
    (run [Op.opRegister "alice@example.com" "pw123" "Alice",
          Op.opAddComment (some 1) 7 "nice post"]).comments =
      [{ id := 1, author_id := some 1, post_id := none, text := "nice post" }] ∧
    (run [Op.opRegister "alice@example.com" "pw123" "Alice",
          Op.opAddComment (some 1) 7 "nice post"]).posts = [] :=
  ⟨rfl, rfl⟩

/-- C5 as amended: in every store state reachable by any sequence of the
specified operations, every stored comment references an existing user as its
author, and every comment whose parent reference is non-NULL references an
existing post; however the parent reference itself may be NULL (`addComment`
on a nonexistent post id stores a parentless comment, and `deletePost` nulls
the parent references of the deleted post's comments). -/
theorem C5_reachable_comment_refs (ops : List Op) :
    ∀ c ∈ (run ops).comments,
      (∃ u ∈ (run ops).users, c.author_id = some u.id) ∧
      (∀ k, c.post_id = some k → ∃ p ∈ (run ops).posts, p.id = k) :=
  commentIntegrity_run ops

/-- C5 witness: the comment stored by `demoOps` has its author among the
reachable store's users. -/
theorem C5_reachable_comment_refs_witness :
    ∃ u ∈ (run demoOps).users, demoComment.author_id = some u.id :=
  (C5_reachable_comment_refs demoOps demoComment (by decide)).1

/-- `registerAll` only ever appends users, and every appended user's email is
one of the submitted registration emails. -/
theorem registerAll_users_suffix (regs : List (String × String × String)) :
    ∀ s : Store, ∃ tail : List User,
      (registerAll regs s).2.users = s.users ++ tail ∧
      ∀ u ∈ tail, u.email ∈ regs.map (fun r => r.1) := by
  induction regs with
  | nil => exact fun s => ⟨[], by simp [registerAll], by simp⟩
  | cons r rest ih =>
      intro s
      obtain ⟨e, p, n⟩ := r
      obtain ⟨tail, htail, hmem⟩ := ih (register e p n s).2.1
      rcases register_store_cases e p n s with heq | heq
      · refine ⟨tail, ?_, ?_⟩
        · show (registerAll rest (register e p n s).2.1).2.users = s.users ++ tail
          rw [htail, heq]
        · intro u hu
          simp only [List.map_cons]
          exact List.mem_cons_of_mem _ (hmem u hu)
      · refine ⟨{ id := s.nextUserId, email := e, password := generate_password_hash p, name := n } :: tail, ?_, ?_⟩
        · show (registerAll rest (register e p n s).2.1).2.users =
            s.users ++ ({ id := s.nextUserId, email := e, password := generate_password_hash p, name := n } :: tail)
          rw [htail, heq]
          simp
        · intro u hu
          rcases List.mem_cons.1 hu with rfl | hu
          · simp
          · simp only [List.map_cons]
            exact List.mem_cons_of_mem _ (hmem u hu)

/-- After a batch of registrations with pairwise distinct fresh emails, the
login-time lookup by any of the registered emails finds exactly the user
created for it: right email, right stored password hash, right name. -/
theorem registerAll_find_registered (regs : List (String × String × String)) :
    ∀ s : Store, (regs.map (fun r => r.1)).Nodup →
      ∀ e p n, (e, p, n) ∈ regs → (∀ u ∈ s.users, u.email ≠ e) →
      ∃ u : User,
        (registerAll regs s).2.users.find? (fun x => x.email == e) = some u ∧
        u.email = e ∧ u.password = generate_password_hash p ∧ u.name = n := by
  induction regs with
  | nil =>
      intro s _ e p n hmem
      cases hmem
  | cons r rest ih =>
      intro s hnd e p n hmem hfresh
      obtain ⟨e0, p0, n0⟩ := r
      rw [List.map_cons, List.nodup_cons] at hnd
      have hnotmem : e0 ∉ rest.map (fun r => r.1) := hnd.1
      have hndrest : (rest.map (fun r => r.1)).Nodup := hnd.2
      rcases List.mem_cons.1 hmem with heq | htl
      · injection heq with h1 h2
        injection h2 with h2 h3
        subst h1
        subst h2
        subst h3
        have hnone : s.users.find? (fun x => x.email == e) = none := by
          rw [List.find?_eq_none]
          intro x hx
          simp [hfresh x hx]
        obtain ⟨tail, htail, hmemtail⟩ :=
          registerAll_users_suffix rest ((register e p n s).2.1)
        refine ⟨{ id := s.nextUserId, email := e, password := generate_password_hash p, name := n }, ?_, rfl, rfl, rfl⟩
        show (registerAll rest (register e p n s).2.1).2.users.find?
            (fun x => x.email == e) = some _
        rw [htail, register_fresh e p n s hfresh]
        have htailnone : tail.find? (fun x => x.email == e) = none := by
          rw [List.find?_eq_none]
          intro x hx
          have : x.email ∈ rest.map (fun r => r.1) := hmemtail x hx
          simp only [beq_iff_eq]
          intro hxe
          rw [hxe] at this
          exact hnotmem this
        rw [List.find?_append, List.find?_append, hnone, Option.none_or,
          List.find?_cons_of_pos _ (by simp), Option.or_some]
      · have hne : e ≠ e0 := by
          intro hee
          apply hnotmem
          rw [← hee]
          exact List.mem_map.2 ⟨(e, p, n), htl, rfl⟩
        have hfresh2 : ∀ u ∈ (register e0 p0 n0 s).2.1.users, u.email ≠ e := by
          rcases register_store_cases e0 p0 n0 s with heq0 | heq0 <;> rw [heq0]
          · exact hfresh
          · intro u hu
            rcases List.mem_append.1 hu with hu | hu
            · exact hfresh u hu
            · rcases List.mem_singleton.1 hu with rfl
              simpa using fun h => hne h.symm
        exact ih ((register e0 p0 n0 s).2.1) hndrest e p n htl hfresh2

/-- When all submitted emails are pairwise distinct and fresh, every call in
the registration batch succeeds. -/
theorem registerAll_all_ok (regs : List (String × String × String)) :
    ∀ s : Store, (regs.map (fun r => r.1)).Nodup →
      (∀ r ∈ regs, ∀ u ∈ s.users, u.email ≠ r.1) →
      ∀ res ∈ (registerAll regs s).1, res = Res.ok := by
  induction regs with
  | nil =>
      intro s _ _ res hres
      simp [registerAll] at hres
  | cons r rest ih =>
      intro s hnd hfresh res hres
      obtain ⟨e0, p0, n0⟩ := r
      rw [List.map_cons, List.nodup_cons] at hnd
      have hnotmem : e0 ∉ rest.map (fun r => r.1) := hnd.1
      have hndrest : (rest.map (fun r => r.1)).Nodup := hnd.2
      have hf0 : ∀ u ∈ s.users, u.email ≠ e0 :=
        fun u hu => hfresh (e0, p0, n0) (List.mem_cons_self _ _) u hu
      have hres' : res = (register e0 p0 n0 s).1 ∨
          res ∈ (registerAll rest (register e0 p0 n0 s).2.1).1 := by
        simpa [registerAll] using hres
      rcases hres' with rfl | hres'
      · rw [register_fresh e0 p0 n0 s hf0]
      · refine ih ((register e0 p0 n0 s).2.1) hndrest ?_ res hres'
        intro r' hr' u hu
        rw [register_fresh e0 p0 n0 s hf0] at hu
        rcases List.mem_append.1 hu with hu | hu
        · exact hfresh r' (List.mem_cons_of_mem _ hr') u hu
        · rcases List.mem_singleton.1 hu with rfl
          show e0 ≠ r'.1
          intro hee
          apply hnotmem
          rw [hee]
          exact List.mem_map.2 ⟨r', hr', rfl⟩

/-- C9: for every batch of registrations with pairwise distinct emails that
are all fresh for the store, every `register` call succeeds, and afterwards
`login` with each registered email and password succeeds, establishing a
session for a user carrying exactly that email, that name and the stored hash
of that password. -/
theorem C9_register_then_authenticate
    (regs : List (String × String × String)) (s : Store)
    (hnd : (regs.map (fun r => r.1)).Nodup)
    (hfresh : ∀ r ∈ regs, ∀ u ∈ s.users, u.email ≠ r.1) :
    (∀ res ∈ (registerAll regs s).1, res = Res.ok) ∧
    (∀ r ∈ regs, ∃ u : User,
      login r.1 r.2.1 (registerAll regs s).2 = (Res.ok, some u) ∧
      u.email = r.1 ∧ u.name = r.2.2 ∧
      u.password = generate_password_hash r.2.1) := by
  refine ⟨registerAll_all_ok regs s hnd hfresh, ?_⟩
  intro r hr
  obtain ⟨e, p, n⟩ := r
  obtain ⟨u, hfind, hue, hup, hun⟩ :=
    registerAll_find_registered regs s hnd e p n hr
      (fun u hu => hfresh (e, p, n) hr u hu)
  refine ⟨u, ?_, hue, hun, hup⟩
  have hchk : check_password_hash u.password p = true := by
    simp [check_password_hash, hup]
  simp only [login, hfind, hchk, if_true]

/-- C9 witness: Alice and Bob register from the fresh database; Alice's
subsequent login with her registration credential succeeds. -/
theorem C9_register_then_authenticate_witness :
    ∃ u : User,
      login "alice@example.com" "pw123"
        (registerAll [("alice@example.com", "pw123", "Alice"),
                      ("bob@example.com", "hunter2", "Bob")] Store.empty).2 =
        (Res.ok, some u) ∧
      u.email = "alice@example.com" ∧ u.name = "Alice" ∧
      u.password = generate_password_hash "pw123" :=
  (C9_register_then_authenticate
      [("alice@example.com", "pw123", "Alice"),
       ("bob@example.com", "hunter2", "Bob")]
      Store.empty (by decide) (by decide)).2
    ("alice@example.com", "pw123", "Alice") (by decide)
